import Mathlib

/-! Shallow embedding of the ValidatorTS repository (src/app.ts): a fluent
string-validation library.  The TypeScript source defines a `Result<T>`
tagged union, a `StringRule` tagged union, and a `StringValidator` class
holding a rule list, with configuration methods (`equals`, `notEquals`,
`minLength`, `maxLength`, `notEmpty`, `empty`), a per-rule checker
(`checkRule`) and an evaluation entry point (`go`).

Numbers of the source (TS `number`) are modelled as `Int` (the repository
only ever compares and prints integer rule parameters).  JS string length
is modelled as `String.length`.  The unknown input of `go` is modelled as
a tagged variant (`str`, `null`, `undefined`, other-with-typeof-name),
mirroring the three-way type gate of the source.  The main model carries
the rule list as a plain `List`; a second, exception-aware layer
(`StringValidatorE`) carries the field at its declared type
`StringRule[] | undefined` and returns `Except`, so that the absence of
thrown errors is a theorem rather than an assumption. -/

namespace ValidatorTS

/-- `Result<T> = { ok: true, value: T } | { ok: false, message: string }`
(src/app.ts lines 1-3). -/
inductive Result (α : Type) where
  | ok (value : α) : Result α
  | err (message : String) : Result α
deriving DecidableEq, Repr

/-- `StringRule` tagged union (src/app.ts lines 15-19). -/
inductive StringRule where
  | equal (value : String) : StringRule
  | notEqual (value : String) : StringRule
  | minLength (min : Int) : StringRule
  | maxLength (max : Int) : StringRule
deriving DecidableEq, Repr

/-- The `type` discriminant string of a rule, as in the source's tagged union. -/
def StringRule.type : StringRule → String
  | .equal _ => "equal"
  | .notEqual _ => "notEqual"
  | .minLength _ => "minLength"
  | .maxLength _ => "maxLength"

/-- The unknown runtime value passed to `go`, classified the way the source's
type gate observes it: a string, `null`, `undefined`, or some other value of
which only `typeof value` matters. -/
inductive JSValue where
  | str (s : String) : JSValue
  | null : JSValue
  | undefined : JSValue
  | other (typeName : String) : JSValue
deriving DecidableEq, Repr

/-- `addRule` (src/app.ts lines 33-42): filter out every rule with the same
`type` tag, then append the new rule.  (The source's `this.rules !== undefined`
guard is modelled separately in `addRuleE`; the constructor guarantees the
field is an array, which `never_throws` establishes below.) -/
def addRule (rules : List StringRule) (rule : StringRule) : List StringRule :=
  rules.filter (fun r => r.type != rule.type) ++ [rule]

/-- The `StringValidator` class state: its private `rules` field, which the
constructor (src/app.ts lines 22-27) coerces to an array. -/
structure StringValidator where
  rules : List StringRule
deriving DecidableEq, Repr

/-- The constructor `new StringValidator(rules?)` (src/app.ts lines 22-27):
a missing (or non-array) argument is coerced to the empty rule list. -/
def StringValidator.make (init : Option (List StringRule)) : StringValidator :=
  match init with
  | some rs => ⟨rs⟩
  | none => ⟨[]⟩

/-- `equals` (src/app.ts lines 47-50). -/
def StringValidator.equals (v : StringValidator) (value : String) : StringValidator :=
  ⟨addRule v.rules (.equal value)⟩

/-- `notEquals` (src/app.ts lines 55-58). -/
def StringValidator.notEquals (v : StringValidator) (value : String) : StringValidator :=
  ⟨addRule v.rules (.notEqual value)⟩

/-- `minLength` (src/app.ts lines 63-66). -/
def StringValidator.minLength (v : StringValidator) (min : Int) : StringValidator :=
  ⟨addRule v.rules (.minLength min)⟩

/-- `maxLength` (src/app.ts lines 71-74). -/
def StringValidator.maxLength (v : StringValidator) (max : Int) : StringValidator :=
  ⟨addRule v.rules (.maxLength max)⟩

/-- `notEmpty` (src/app.ts lines 79-83): adds a min-length-1 rule. -/
def StringValidator.notEmpty (v : StringValidator) : StringValidator :=
  ⟨addRule v.rules (.minLength 1)⟩

/-- `empty` (src/app.ts lines 88-92): adds a max-length-0 rule. -/
def StringValidator.empty (v : StringValidator) : StringValidator :=
  ⟨addRule v.rules (.maxLength 0)⟩

/-- `checkRule` (src/app.ts lines 97-126): check one rule against a string. -/
def checkRule (rule : StringRule) (value : String) : Result String :=
  match rule with
  | .equal v =>
      if v ≠ value then
        .err ("Value was expected to be " ++ v ++ " but was " ++ value ++ ".")
      else .ok value
  | .notEqual v =>
      if v = value then
        .err ("Value must not be " ++ v ++ ".")
      else .ok value
  | .minLength min =>
      if (value.length : Int) < min then
        .err ("String length must be greater than or equal to " ++ toString min ++
          " but was " ++ toString value.length ++ ".")
      else .ok value
  | .maxLength max =>
      if (value.length : Int) > max then
        .err ("String length must be less than or equal to " ++ toString max ++
          " but was " ++ toString value.length ++ ".")
      else .ok value

/-- The rule loop of `go` (src/app.ts lines 149-157): check each rule in
stored order, returning the first failing rule's result; if none fails,
return the value (lines 160-163). -/
def goRules : List StringRule → String → Result String
  | [], value => .ok value
  | rule :: rest, value =>
      match checkRule rule value with
      | .err m => .err m
      | .ok _ => goRules rest value

/-- `go` (src/app.ts lines 128-164): type-gate on null / undefined /
non-string, then run the rules. -/
def StringValidator.go (v : StringValidator) (value : JSValue) : Result String :=
  match value with
  | .null => .err "StringValidator expected a string but received null."
  | .undefined => .err "StringValidator expected a string but received undefined."
  | .other typeName =>
      .err ("StringValidator expected a string but received " ++ typeName ++ ".")
  | .str s => goRules v.rules s

/-- Evaluation with the class state threaded explicitly: the body of `go`
(src/app.ts lines 128-164) never assigns `this.rules`, so every branch
returns the state unchanged. -/
def StringValidator.goS (v : StringValidator) (value : JSValue) :
    Result String × StringValidator :=
  match value with
  | .null => (.err "StringValidator expected a string but received null.", v)
  | .undefined => (.err "StringValidator expected a string but received undefined.", v)
  | .other typeName =>
      (.err ("StringValidator expected a string but received " ++ typeName ++ "."), v)
  | .str s => (goRules v.rules s, v)

/-- The demo validator (src/app.ts line 167):
`new StringValidator().notEmpty().maxLength(20).notEquals("foo")`. -/
def validator : StringValidator :=
  (((StringValidator.make none).notEmpty).maxLength 20).notEquals "foo"

/-- One configuration call of the public API. -/
inductive ConfigCall where
  | equals (value : String) : ConfigCall
  | notEquals (value : String) : ConfigCall
  | minLength (min : Int) : ConfigCall
  | maxLength (max : Int) : ConfigCall
  | notEmpty : ConfigCall
  | empty : ConfigCall
deriving DecidableEq, Repr

/-- The rule a configuration call passes to `addRule` (src/app.ts lines 47-92). -/
def ConfigCall.rule : ConfigCall → StringRule
  | .equals value => .equal value
  | .notEquals value => .notEqual value
  | .minLength min => .minLength min
  | .maxLength max => .maxLength max
  | .notEmpty => .minLength 1
  | .empty => .maxLength 0

/-- Apply one configuration call to a validator. -/
def applyCall (v : StringValidator) : ConfigCall → StringValidator
  | .equals value => v.equals value
  | .notEquals value => v.notEquals value
  | .minLength min => v.minLength min
  | .maxLength max => v.maxLength max
  | .notEmpty => v.notEmpty
  | .empty => v.empty

/-- Apply a sequence of configuration calls, left to right. -/
def applyCalls (v : StringValidator) : List ConfigCall → StringValidator
  | [] => v
  | c :: cs => applyCalls (applyCall v c) cs

/-- The `StringValidator` state with its `rules` field typed as declared in
the source: `StringRule[] | undefined` (the constructor parameter is
optional, so the declared field type admits `undefined`). -/
structure StringValidatorE where
  rules : Option (List StringRule)
deriving DecidableEq, Repr

/-- The constructor (src/app.ts lines 22-27), exception-aware layer: the
`Array.isArray` gate coerces a missing argument to `[]`, so the field is an
array afterwards; construction itself evaluates no throwing operation. -/
def StringValidatorE.makeE (init : Option (List StringRule)) : StringValidatorE :=
  match init with
  | some rs => ⟨some rs⟩
  | none => ⟨some []⟩

/-- `addRule` (src/app.ts lines 33-42), exception-aware: if the field were
`undefined`, the local `filtered` stays `undefined` and the spread
`[...filtered, rule]` would throw a `TypeError`, modelled as `Except.error`. -/
def addRuleE (v : StringValidatorE) (rule : StringRule) : Except String (List StringRule) :=
  match v.rules with
  | some rs => .ok (rs.filter (fun r => r.type != rule.type) ++ [rule])
  | none => .error "TypeError: filtered is not iterable"

/-- A configuration call (src/app.ts lines 47-92), exception-aware: it
assigns `this.rules = this.addRule(...)`, propagating any thrown error. -/
def applyCallE (v : StringValidatorE) (c : ConfigCall) : Except String StringValidatorE :=
  match addRuleE v c.rule with
  | .ok rs => .ok ⟨some rs⟩
  | .error e => .error e

/-- A sequence of configuration calls, exception-aware. -/
def applyCallsE (v : StringValidatorE) : List ConfigCall → Except String StringValidatorE
  | [] => .ok v
  | c :: cs =>
      match applyCallE v c with
      | .ok v2 => applyCallsE v2 cs
      | .error e => .error e

/-- `go` (src/app.ts lines 128-164), exception-aware: the type gate is plain
comparison, the rule loop is guarded by `this.rules !== undefined`, and
`checkRule` performs only non-throwing string operations, so the body always
returns a `Result`. -/
def StringValidatorE.goE (v : StringValidatorE) (value : JSValue) :
    Except String (Result String) :=
  .ok (match value with
  | .null => .err "StringValidator expected a string but received null."
  | .undefined => .err "StringValidator expected a string but received undefined."
  | .other typeName =>
      .err ("StringValidator expected a string but received " ++ typeName ++ ".")
  | .str s =>
      match v.rules with
      | some rs => goRules rs s
      | none => .ok s)

lemma goRules_append_err (s m : String) (r : StringRule) (hr : checkRule r s = .err m) :
    ∀ (pre : List StringRule), (∀ p ∈ pre, checkRule p s = .ok s) →
      ∀ (post : List StringRule), goRules (pre ++ r :: post) s = .err m := by
  intro pre
  induction pre with
  | nil => intro _ post; simp [goRules, hr]
  | cons p ps ih =>
      intro hpre post
      have hp : checkRule p s = .ok s := hpre p (by simp)
      have hrest := ih (fun q hq => hpre q (by simp [hq])) post
      simp [goRules, hp, hrest]

lemma applyCall_rules (v : StringValidator) (c : ConfigCall) :
    (applyCall v c).rules = addRule v.rules c.rule := by
  cases c <;> rfl

lemma addRule_filter_ne (rules : List StringRule) (r : StringRule) :
    (addRule rules r).filter (fun x => x.type != r.type) =
      rules.filter (fun x => x.type != r.type) := by
  simp [addRule, List.filter_append, List.filter_filter]

lemma addRule_filter_eq (rules : List StringRule) (r : StringRule) :
    (addRule rules r).filter (fun x => x.type == r.type) = [r] := by
  simp [addRule, List.filter_append, List.filter_filter]

lemma addRule_length_of_not_mem (rules : List StringRule) (r : StringRule)
    (h : r.type ∉ rules.map StringRule.type) :
    (addRule rules r).length = rules.length + 1 := by
  have hf : rules.filter (fun x => x.type != r.type) = rules := by
    rw [List.filter_eq_self]
    intro a ha
    simp only [bne_iff_ne, ne_eq]
    intro hc
    exact h (hc ▸ List.mem_map_of_mem StringRule.type ha)
  simp [addRule, hf]

lemma mem_kinds_addRule {a : String} {rules : List StringRule} {r : StringRule}
    (h : a ∈ (addRule rules r).map StringRule.type) :
    a ∈ rules.map StringRule.type ∨ a = r.type := by
  simp only [addRule, List.map_append, List.mem_append, List.map_cons, List.map_nil,
    List.mem_singleton] at h
  rcases h with h | h
  · left
    obtain ⟨x, hx, hxa⟩ := List.mem_map.mp h
    exact List.mem_map.mpr ⟨x, (List.mem_filter.mp hx).1, hxa⟩
  · right; exact h

lemma applyCalls_length (v : StringValidator) (calls : List ConfigCall)
    (h : ∀ c ∈ calls, (ConfigCall.rule c).type ∉ v.rules.map StringRule.type)
    (hnd : (calls.map fun c => (ConfigCall.rule c).type).Nodup) :
    (applyCalls v calls).rules.length = v.rules.length + calls.length := by
  induction calls generalizing v with
  | nil => rfl
  | cons c cs ih =>
      have hc := h c (by simp)
      have hstep : (applyCall v c).rules = addRule v.rules c.rule := applyCall_rules v c
      have hlen : (applyCall v c).rules.length = v.rules.length + 1 := by
        rw [hstep]; exact addRule_length_of_not_mem v.rules c.rule hc
      have hnd' : (cs.map fun c => (ConfigCall.rule c).type).Nodup := hnd.of_cons
      have h' : ∀ c2 ∈ cs,
          (ConfigCall.rule c2).type ∉ (applyCall v c).rules.map StringRule.type := by
        intro c2 hc2 hmem
        rw [hstep] at hmem
        rcases mem_kinds_addRule hmem with hm | hm
        · exact h c2 (by simp [hc2]) hm
        · have hni : (ConfigCall.rule c).type ∉ cs.map fun c => (ConfigCall.rule c).type :=
            (List.nodup_cons.mp hnd).1
          exact hni (hm ▸ List.mem_map_of_mem _ hc2)
      calc (applyCalls (applyCall v c) cs).rules.length
          = (applyCall v c).rules.length + cs.length := ih (applyCall v c) h' hnd'
        _ = v.rules.length + (cs.length + 1) := by rw [hlen]; omega
        _ = v.rules.length + (c :: cs).length := by simp

lemma addRule_kinds_nodup (rules : List StringRule) (r : StringRule)
    (h : (rules.map StringRule.type).Nodup) :
    ((addRule rules r).map StringRule.type).Nodup := by
  simp only [addRule, List.map_append, List.map_cons, List.map_nil]
  rw [List.nodup_append]
  refine ⟨?_, List.nodup_singleton _, ?_⟩
  · exact ((List.filter_sublist rules).map StringRule.type).nodup h
  · intro a ha hb
    simp only [List.mem_singleton] at hb
    obtain ⟨x, hx, hxa⟩ := List.mem_map.mp ha
    have hne := (List.mem_filter.mp hx).2
    simp only [bne_iff_ne, ne_eq] at hne
    exact hne (hxa.trans hb)

lemma applyCallsE_some (calls : List ConfigCall) :
    ∀ (rs : List StringRule), ∃ rs2 : List StringRule,
      applyCallsE ⟨some rs⟩ calls = .ok ⟨some rs2⟩ := by
  induction calls with
  | nil => intro rs; exact ⟨rs, rfl⟩
  | cons c cs ih =>
      intro rs
      obtain ⟨rs2, h⟩ := ih (rs.filter (fun r => r.type != c.rule.type) ++ [c.rule])
      exact ⟨rs2, h⟩

/-- Claim C1: the demo validator `notEmpty().maxLength(20).notEquals("foo")`
rejects `"foo"` with `"Value must not be foo."`, accepts `"bar"` with value
`"bar"`, rejects the 24-character string `"something longer than 20"` with
`"String length must be less than or equal to 20 but was 24."`, and rejects
`""` with `"String length must be greater than or equal to 1 but was 0."`. -/
theorem demo_validator_results :
    validator.go (.str "foo") = .err "Value must not be foo." ∧
    validator.go (.str "bar") = .ok "bar" ∧
    "something longer than 20".length = 24 ∧
    validator.go (.str "something longer than 20") =
      .err "String length must be less than or equal to 20 but was 24." ∧
    validator.go (.str "") =
      .err "String length must be greater than or equal to 1 but was 0." := by
  decide

/-- Claim C2: for every configured rule list, `go` on a non-string input
fails with the exact message naming the received kind (null, undefined, or
the runtime type name), and the result does not depend on the rules — rule
logic is never reached. -/
theorem go_type_gate (rules rules2 : List StringRule) (t : String) :
    (StringValidator.mk rules).go .null =
      .err "StringValidator expected a string but received null." ∧
    (StringValidator.mk rules).go .undefined =
      .err "StringValidator expected a string but received undefined." ∧
    (StringValidator.mk rules).go (.other t) =
      .err ("StringValidator expected a string but received " ++ t ++ ".") ∧
    (StringValidator.mk rules).go .null = (StringValidator.mk rules2).go .null ∧
    (StringValidator.mk rules).go .undefined = (StringValidator.mk rules2).go .undefined ∧
    (StringValidator.mk rules).go (.other t) = (StringValidator.mk rules2).go (.other t) :=
  ⟨rfl, rfl, rfl, rfl, rfl, rfl⟩

/-- Witness for C2 at a concrete rule list and the claim's `number` example. -/
theorem go_type_gate_witness :
    (StringValidator.mk [StringRule.minLength 1]).go .null =
      .err "StringValidator expected a string but received null." ∧
    (StringValidator.mk [StringRule.minLength 1]).go .undefined =
      .err "StringValidator expected a string but received undefined." ∧
    (StringValidator.mk [StringRule.minLength 1]).go (.other "number") =
      .err ("StringValidator expected a string but received " ++ "number" ++ ".") ∧
    (StringValidator.mk [StringRule.minLength 1]).go .null = (StringValidator.mk []).go .null ∧
    (StringValidator.mk [StringRule.minLength 1]).go .undefined =
      (StringValidator.mk []).go .undefined ∧
    (StringValidator.mk [StringRule.minLength 1]).go (.other "number") =
      (StringValidator.mk []).go (.other "number") :=
  go_type_gate [StringRule.minLength 1] [] "number"

/-- Claim C3: per-rule semantics of `checkRule` — each rule kind fails exactly
on the claimed condition and with the claimed message, and passes (returning
the candidate) otherwise. -/
theorem checkRule_semantics (v c : String) (n : Int) :
    (checkRule (.equal v) c =
        .err ("Value was expected to be " ++ v ++ " but was " ++ c ++ ".") ↔ c ≠ v) ∧
    (checkRule (.equal v) c = .ok c ↔ c = v) ∧
    (checkRule (.notEqual v) c = .err ("Value must not be " ++ v ++ ".") ↔ c = v) ∧
    (checkRule (.notEqual v) c = .ok c ↔ c ≠ v) ∧
    (checkRule (.minLength n) c =
        .err ("String length must be greater than or equal to " ++ toString n ++
          " but was " ++ toString c.length ++ ".") ↔ (c.length : Int) < n) ∧
    (checkRule (.minLength n) c = .ok c ↔ ¬ ((c.length : Int) < n)) ∧
    (checkRule (.maxLength n) c =
        .err ("String length must be less than or equal to " ++ toString n ++
          " but was " ++ toString c.length ++ ".") ↔ (c.length : Int) > n) ∧
    (checkRule (.maxLength n) c = .ok c ↔ ¬ ((c.length : Int) > n)) := by
  refine ⟨?_, ?_, ?_, ?_, ?_, ?_, ?_, ?_⟩ <;>
    simp only [checkRule] <;> split <;> simp_all [eq_comm]

/-- Witness for C3 at concrete rule parameters and candidate. -/
theorem checkRule_semantics_witness :
    (checkRule (.equal "foo") "bar" =
        .err ("Value was expected to be " ++ "foo" ++ " but was " ++ "bar" ++ ".") ↔
      "bar" ≠ "foo") ∧
    (checkRule (.equal "foo") "bar" = .ok "bar" ↔ "bar" = "foo") ∧
    (checkRule (.notEqual "foo") "bar" = .err ("Value must not be " ++ "foo" ++ ".") ↔
      "bar" = "foo") ∧
    (checkRule (.notEqual "foo") "bar" = .ok "bar" ↔ "bar" ≠ "foo") ∧
    (checkRule (.minLength 5) "bar" =
        .err ("String length must be greater than or equal to " ++ toString (5 : Int) ++
          " but was " ++ toString "bar".length ++ ".") ↔ ("bar".length : Int) < 5) ∧
    (checkRule (.minLength 5) "bar" = .ok "bar" ↔ ¬ (("bar".length : Int) < 5)) ∧
    (checkRule (.maxLength 5) "bar" =
        .err ("String length must be less than or equal to " ++ toString (5 : Int) ++
          " but was " ++ toString "bar".length ++ ".") ↔ ("bar".length : Int) > 5) ∧
    (checkRule (.maxLength 5) "bar" = .ok "bar" ↔ ¬ (("bar".length : Int) > 5)) :=
  checkRule_semantics "foo" "bar" 5

/-- Claim C4: if every rule before `r` passes and `r` fails with message `m`,
then `go` returns `.err m`, and changing the rules after `r` does not change
the result — evaluation short-circuits at the first failing rule. -/
theorem go_short_circuit (pre post post2 : List StringRule) (r : StringRule) (s m : String)
    (hpre : ∀ p ∈ pre, checkRule p s = .ok s)
    (hr : checkRule r s = .err m) :
    (StringValidator.mk (pre ++ r :: post)).go (.str s) = .err m ∧
    (StringValidator.mk (pre ++ r :: post)).go (.str s) =
      (StringValidator.mk (pre ++ r :: post2)).go (.str s) := by
  have h1 := goRules_append_err s m r hr pre hpre post
  have h2 := goRules_append_err s m r hr pre hpre post2
  exact ⟨h1, h1.trans h2.symm⟩

/-- Witness for C4: the demo rule order on `"foo"`, with the trailing
max-length rule's parameter changed from 20 to 0. -/
theorem go_short_circuit_witness :
    (∀ p ∈ [StringRule.minLength 1], checkRule p "foo" = .ok "foo") ∧
    checkRule (StringRule.notEqual "foo") "foo" = .err "Value must not be foo." ∧
    ((StringValidator.mk
        ([StringRule.minLength 1] ++ StringRule.notEqual "foo" :: [StringRule.maxLength 20])).go
        (.str "foo") = .err "Value must not be foo." ∧
     (StringValidator.mk
        ([StringRule.minLength 1] ++ StringRule.notEqual "foo" :: [StringRule.maxLength 20])).go
        (.str "foo") =
       (StringValidator.mk
          ([StringRule.minLength 1] ++ StringRule.notEqual "foo" :: [StringRule.maxLength 0])).go
          (.str "foo")) :=
  ⟨by decide, by decide,
   go_short_circuit [StringRule.minLength 1] [StringRule.maxLength 20] [StringRule.maxLength 0]
     (StringRule.notEqual "foo") "foo" "Value must not be foo." (by decide) (by decide)⟩

/-- Claim C5: every configuration call goes through `addRule`; `addRule`
keeps exactly the new rule in its kind slot, preserves the other kinds in
order, appends the new rule last, a same-kind double add keeps only the
second call's rule, and configuring distinct kinds on the empty validator
stores exactly one rule per call. -/
theorem addRule_replace_policy (v : StringValidator) (s : String) (n : Int)
    (rules : List StringRule) (r r2 : StringRule) (calls : List ConfigCall) :
    ((v.equals s).rules = addRule v.rules (.equal s) ∧
     (v.notEquals s).rules = addRule v.rules (.notEqual s) ∧
     (v.minLength n).rules = addRule v.rules (.minLength n) ∧
     (v.maxLength n).rules = addRule v.rules (.maxLength n) ∧
     (v.notEmpty).rules = addRule v.rules (.minLength 1) ∧
     (v.empty).rules = addRule v.rules (.maxLength 0)) ∧
    (addRule rules r).filter (fun x => x.type == r.type) = [r] ∧
    (addRule rules r).filter (fun x => x.type != r.type) =
      rules.filter (fun x => x.type != r.type) ∧
    (addRule rules r).getLast? = some r ∧
    (r2.type = r.type → addRule (addRule rules r2) r = addRule rules r) ∧
    ((calls.map fun c => (ConfigCall.rule c).type).Nodup →
      (applyCalls (StringValidator.make none) calls).rules.length = calls.length) := by
  refine ⟨⟨rfl, rfl, rfl, rfl, rfl, rfl⟩, addRule_filter_eq rules r, addRule_filter_ne rules r,
    ?_, ?_, ?_⟩
  · simp [addRule]
  · intro h
    simp only [addRule, List.filter_append, List.filter_filter, h]
    have h2 : ([r2].filter fun x => x.type != r.type) = [] := by
      simp [h]
    simp only [List.filter_cons, List.filter_nil] at h2 ⊢
    simp_all
  · intro hnd
    have hlen :=
      applyCalls_length (StringValidator.make none) calls (by simp [StringValidator.make]) hnd
    simpa [StringValidator.make] using hlen

/-- Witness for C5: a min-length rule replaced by later min-length calls,
then three distinct-kind calls on the empty validator. -/
theorem addRule_replace_policy_witness :
    (((StringValidator.mk [StringRule.minLength 3]).equals "a").rules =
        addRule [StringRule.minLength 3] (.equal "a") ∧
     ((StringValidator.mk [StringRule.minLength 3]).notEquals "a").rules =
        addRule [StringRule.minLength 3] (.notEqual "a") ∧
     ((StringValidator.mk [StringRule.minLength 3]).minLength 2).rules =
        addRule [StringRule.minLength 3] (.minLength 2) ∧
     ((StringValidator.mk [StringRule.minLength 3]).maxLength 2).rules =
        addRule [StringRule.minLength 3] (.maxLength 2) ∧
     ((StringValidator.mk [StringRule.minLength 3]).notEmpty).rules =
        addRule [StringRule.minLength 3] (.minLength 1) ∧
     ((StringValidator.mk [StringRule.minLength 3]).empty).rules =
        addRule [StringRule.minLength 3] (.maxLength 0)) ∧
    (addRule [StringRule.minLength 3] (StringRule.minLength 1)).filter
      (fun x => x.type == (StringRule.minLength 1).type) = [StringRule.minLength 1] ∧
    (addRule [StringRule.minLength 3] (StringRule.minLength 1)).filter
      (fun x => x.type != (StringRule.minLength 1).type) =
      [StringRule.minLength 3].filter (fun x => x.type != (StringRule.minLength 1).type) ∧
    (addRule [StringRule.minLength 3] (StringRule.minLength 1)).getLast? =
      some (StringRule.minLength 1) ∧
    ((StringRule.minLength 2).type = (StringRule.minLength 1).type →
      addRule (addRule [StringRule.minLength 3] (StringRule.minLength 2))
        (StringRule.minLength 1) = addRule [StringRule.minLength 3] (StringRule.minLength 1)) ∧
    (([ConfigCall.notEmpty, ConfigCall.maxLength 5,
        ConfigCall.notEquals "foo"].map fun c => (ConfigCall.rule c).type).Nodup →
      (applyCalls (StringValidator.make none)
        [ConfigCall.notEmpty, ConfigCall.maxLength 5,
         ConfigCall.notEquals "foo"]).rules.length = 3) :=
  addRule_replace_policy (StringValidator.mk [StringRule.minLength 3]) "a" 2
    [StringRule.minLength 3] (StringRule.minLength 1) (StringRule.minLength 2)
    [ConfigCall.notEmpty, ConfigCall.maxLength 5, ConfigCall.notEquals "foo"]

/-- Counterexample to C6 as stated: constructing from an initial rule list
with two rules of the same kind leaves two rules of that kind. -/
theorem construct_duplicate_kinds_cex :
    ¬ (((StringValidator.make
        (some [StringRule.minLength 1, StringRule.minLength 2])).rules.map
        StringRule.type).Nodup) := by
  decide

/-- Claim C6 (amended): a validator whose construction yields at most one
rule of each kind (in particular the default construction) keeps at most one
rule of each kind after any sequence of configuration calls. -/
theorem kinds_nodup_invariant (init : Option (List StringRule)) (calls : List ConfigCall)
    (h : ((StringValidator.make init).rules.map StringRule.type).Nodup) :
    (((applyCalls (StringValidator.make init) calls).rules.map StringRule.type).Nodup) := by
  have main : ∀ (cs : List ConfigCall) (v : StringValidator),
      (v.rules.map StringRule.type).Nodup →
      (((applyCalls v cs).rules.map StringRule.type).Nodup) := by
    intro cs
    induction cs with
    | nil => intro v hv; exact hv
    | cons c cs ih =>
        intro v hv
        refine ih (applyCall v c) ?_
        rw [applyCall_rules]
        exact addRule_kinds_nodup v.rules c.rule hv
  exact main calls (StringValidator.make init) h

/-- Witness for C6 (amended): default construction followed by three calls,
two of them of the same kind. -/
theorem kinds_nodup_invariant_witness :
    ((StringValidator.make none).rules.map StringRule.type).Nodup ∧
    (((applyCalls (StringValidator.make none)
        [ConfigCall.notEmpty, ConfigCall.maxLength 5,
         ConfigCall.notEmpty]).rules.map StringRule.type).Nodup) :=
  ⟨by decide,
   kinds_nodup_invariant none
     [ConfigCall.notEmpty, ConfigCall.maxLength 5, ConfigCall.notEmpty] (by decide)⟩

/-- Claim C7: a validator with zero rules passes every string through
unchanged. -/
theorem go_zero_rules (s : String) :
    (StringValidator.mk []).go (.str s) = .ok s ∧
    (StringValidator.make none).go (.str s) = .ok s :=
  ⟨rfl, rfl⟩

/-- Witness for C7 at a concrete string. -/
theorem go_zero_rules_witness :
    (StringValidator.mk []).go (.str "hello") = .ok "hello" ∧
    (StringValidator.make none).go (.str "hello") = .ok "hello" :=
  go_zero_rules "hello"

/-- Claim C8: `notEmpty` is exactly `minLength 1` and `empty` is exactly
`maxLength 0`; `notEmpty` after `maxLength 5` leaves two rules of different
kinds, while `notEmpty` after `minLength 3` replaces the min-length rule. -/
theorem notEmpty_empty_sugar :
    (∀ v : StringValidator, v.notEmpty = v.minLength 1) ∧
    (∀ v : StringValidator, v.empty = v.maxLength 0) ∧
    (((StringValidator.make none).maxLength 5).notEmpty).rules =
      [.maxLength 5, .minLength 1] ∧
    (((StringValidator.make none).minLength 3).notEmpty).rules = [.minLength 1] :=
  ⟨fun _ => rfl, fun _ => rfl, by decide, by decide⟩

/-- Witness for C8 at the demo validator. -/
theorem notEmpty_empty_sugar_witness :
    validator.notEmpty = validator.minLength 1 ∧ validator.empty = validator.maxLength 0 :=
  ⟨notEmpty_empty_sugar.1 validator, notEmpty_empty_sugar.2.1 validator⟩

/-- Claim C9: starting from any constructor argument, any sequence of
configuration calls succeeds without a thrown error, and `go` on any value
afterwards returns a `Result` without a thrown error. -/
theorem never_throws (init : Option (List StringRule)) (calls : List ConfigCall)
    (value : JSValue) :
    ∃ (v2 : StringValidatorE) (res : Result String),
      applyCallsE (StringValidatorE.makeE init) calls = .ok v2 ∧ v2.goE value = .ok res := by
  have hsome : ∃ rs : List StringRule, StringValidatorE.makeE init = ⟨some rs⟩ := by
    cases init with
    | none => exact ⟨[], rfl⟩
    | some rs => exact ⟨rs, rfl⟩
  obtain ⟨rs, hrs⟩ := hsome
  rw [hrs]
  obtain ⟨rs2, h2⟩ := applyCallsE_some calls rs
  exact ⟨⟨some rs2⟩, _, h2, rfl⟩

/-- Witness for C9 at the demo configuration and a number input. -/
theorem never_throws_witness :
    ∃ (v2 : StringValidatorE) (res : Result String),
      applyCallsE (StringValidatorE.makeE none)
        [ConfigCall.notEmpty, ConfigCall.maxLength 20, ConfigCall.notEquals "foo"] = .ok v2 ∧
      v2.goE (.other "number") = .ok res :=
  never_throws none [ConfigCall.notEmpty, ConfigCall.maxLength 20, ConfigCall.notEquals "foo"]
    (.other "number")

/-- Claim C10: evaluation threads the state through unchanged, agrees with
`go`, repeating the call gives the same answer, and the result depends only
on the stored rules. -/
theorem go_pure (v w : StringValidator) (value : JSValue) (h : v.rules = w.rules) :
    (v.goS value).2.rules = v.rules ∧
    (v.goS value).1 = v.go value ∧
    (v.goS value).2.goS value = v.goS value ∧
    v.go value = w.go value := by
  cases v; cases w; cases h
  cases value <;> exact ⟨rfl, rfl, rfl, rfl⟩

/-- Witness for C10: the demo validator against a same-rules validator built
directly from the rule list. -/
theorem go_pure_witness :
    validator.rules =
      (StringValidator.mk [.minLength 1, .maxLength 20, .notEqual "foo"]).rules ∧
    ((validator.goS (.str "x")).2.rules = validator.rules ∧
     (validator.goS (.str "x")).1 = validator.go (.str "x") ∧
     (validator.goS (.str "x")).2.goS (.str "x") = validator.goS (.str "x") ∧
     validator.go (.str "x") =
       (StringValidator.mk [.minLength 1, .maxLength 20, .notEqual "foo"]).go (.str "x")) :=
  ⟨by decide,
   go_pure validator (StringValidator.mk [.minLength 1, .maxLength 20, .notEqual "foo"])
     (.str "x") (by decide)⟩

end ValidatorTS
